import Mathlib

/-!
Shallow embedding of the go-hal HAL (Hypertext Application Language)
library: the Link data type, the Envelope link map with its
single-value-to-list collision rule, CURIE resolution, strict-mode link
computation, the JSON byte splicer, and the Collection wrapper.

Byte sequences are modelled as lists of characters.  The external JSON
encoder for the wrapped record is a black box (per the spec's
collaborator contract): a record carries the bytes the encoder produces
for it.  JSON serialization of the metadata maps (which the package
performs itself through the standard library) is modelled concretely,
with keys sorted as Go's encoding/json does for maps.  Go map iteration
order (unspecified at runtime) is made explicit as an order parameter
where it matters.
-/

/-- Byte strings, modelled as lists of characters. -/
abbrev Bytes := List Char

/-- The whitespace set of Go's bytes.TrimSpace for ASCII input. -/
def goIsSpace (c : Char) : Bool :=
  c = ' ' || c = '\t' || c = '\n' || c = '\x0d' || c = '\x0b' || c = '\x0c'

/-- bytes.TrimSpace: strip whitespace from both ends. -/
def trimSpace (b : Bytes) : Bytes :=
  ((b.dropWhile goIsSpace).reverse.dropWhile goIsSpace).reverse

/-- hal.Link: one hypermedia relation entry (hal.go).  The `rel` field is
used as the map key and never serialized directly. -/
structure Link where
  rel : String := ""
  href : String := ""
  templated : Bool := false
  type : String := ""
  title : String := ""
  name : String := ""
  method : String := ""
deriving DecidableEq, Repr

/-- A value that addLinkRaw is ever handed (Go type `any`): a single Link
(from AddLink) or a `[]Link` slice (from the curies injection) — the only
two shapes the library ever stores or appends. -/
inductive GoAnyElem where
  | link : Link → GoAnyElem
  | linkSlice : List Link → GoAnyElem
deriving DecidableEq, Repr

/-- A value stored in an Envelope's `links` map (Go type `any`): a single
Link, a `[]Link` slice (only ever stored by the curies injection), or an
`[]any` slice produced by the collision rule of addLinkRaw.  The Go type
assertion `existing.([]any)` distinguishes `[]any` from `[]Link`, so the
two slice shapes are distinct constructors; the elements of an `[]any`
are the values previously added, each a Link or a `[]Link`. -/
inductive LinkVal where
  | link : Link → LinkVal
  | linkSlice : List Link → LinkVal
  | anySlice : List GoAnyElem → LinkVal
deriving DecidableEq, Repr

/-- An added value as stored when its relation was still unused. -/
def elemVal : GoAnyElem → LinkVal
  | .link l => .link l
  | .linkSlice ls => .linkSlice ls

/-- The Envelope `links` (and CollectionPage `Links`) map, as an
association list with unique keys; Go's map is unordered but
serialization sorts keys, and iteration order is passed explicitly where
the code depends on it. -/
abbrev LinksMap := List (String × LinkVal)

/-- Association-list lookup (first match), modelling Go map indexing. -/
def lookupRel : LinksMap → String → Option LinkVal
  | [], _ => none
  | (k, v) :: rest, r => if k = r then some v else lookupRel rest r

/-- Association-list update: replace the first binding of the key, or
append a fresh binding, modelling Go map assignment. -/
def setRel : LinksMap → String → LinkVal → LinksMap
  | [], r, v => [(r, v)]
  | (k, w) :: rest, r, v =>
      if k = r then (k, v) :: rest else (k, w) :: setRel rest r v

/-- Envelope.addLinkRaw: store under a relation, converting to an `[]any`
list on collision and appending when the stored value already is one. -/
def addLinkRaw (m : LinksMap) (rel : String) (val : GoAnyElem) : LinksMap :=
  match lookupRel m rel with
  | some (.anySlice s) => setRel m rel (.anySlice (s ++ [val]))
  | some (.link l) => setRel m rel (.anySlice ((.link l) :: val :: []))
  | some (.linkSlice ls) => setRel m rel (.anySlice ((.linkSlice ls) :: val :: []))
  | none => m ++ [(rel, elemVal val)]

/-- Envelope.AddLink: append a link under its own Rel field. -/
def AddLink (m : LinksMap) (l : Link) : LinksMap :=
  addLinkRaw m l.rel (.link l)

/-- A sequence of AddLink calls, left to right. -/
def addLinks (m : LinksMap) (ls : List Link) : LinksMap :=
  ls.foldl AddLink m

/-- checkJSONStructure (part_005): classify trimmed record bytes as
(isNull, isEmptyObject) or reject a non-object top-level value. -/
def checkJSONStructure (b : Bytes) : Except String (Bool × Bool) :=
  if b.isEmpty || b = ('n' :: 'u' :: 'l' :: 'l' :: []) then
    .ok (true, false)
  else if b.head? ≠ some '{' then
    .error "hal: data must be a JSON object to splice"
  else if b.length = 2 && b.get? 1 = some '}' then
    .ok (false, true)
  else
    .ok (false, false)

/-- spliceJSON (part_005): combine the record's serialized bytes with the
metadata object's bytes.  `data[:len(data)-1]` is dropLast and `meta[1:]`
is drop 1. -/
def spliceJSON (data meta : Bytes) (isDataNull isDataEmptyObj : Bool) : Bytes :=
  if meta.length = 0 then
    if isDataNull then ('{' :: '}' :: []) else data
  else if isDataNull || isDataEmptyObj then
    meta
  else
    data.dropLast ++ ',' :: meta.drop 1

/-- A Go runtime type, as far as the registry distinguishes them: a named
struct type, a pointer type, or a non-struct (primitive or other) type.
reflect keys the generator map by exact runtime type. -/
inductive GoType where
  | structT : String → GoType
  | ptrT : GoType → GoType
  | primT : String → GoType
deriving DecidableEq, Repr

/-- reflect kind check used by computeLinks: struct, or pointer to
struct. -/
def isStructLike : GoType → Bool
  | .structT _ => true
  | .ptrT (.structT _) => true
  | _ => false

/-- A record handed to Wrap: its exact runtime type plus the bytes the
external JSON encoder produces for it (black-box collaborator). -/
structure GoData where
  type : GoType
  json : Bytes

/-- Generic association-list lookup (first match), for the generator map
and the CURIE table. -/
def assocLookup {κ α : Type} [DecidableEq κ] : List (κ × α) → κ → Option α
  | [], _ => none
  | (k, v) :: rest, r => if k = r then some v else assocLookup rest r

/-- hal.Instance: the registry.  A generator is modelled by the link list
it returns for a given record; the CURIE table maps a short name to a
URI template. -/
structure Instance where
  generators : List (GoType × (GoData → List Link))
  curies : List (String × String)
  strictMode : Bool

/-- Instance.lookupGenerator: exact-type lookup in the generator map. -/
def lookupGenerator (i : Instance) (t : GoType) : Option (GoData → List Link) :=
  assocLookup i.generators t

/-- strings.IndexByte(rel, colon): index of the first ':' if any. -/
def colonIdx (r : List Char) : Option Nat :=
  r.findIdx? (fun c => c = ':')

/-- The CURIE prefix of a relation name: the bytes before the first ':'
when that ':' occurs at a positive index (resolveCuries requires
idx > 0). -/
def relPfx (rel : String) : Option String :=
  match colonIdx rel.toList with
  | some i => if 0 < i then some (String.mk (rel.toList.take i)) else none
  | none => none

/-- The synthetic curies Link emitted for one relation name, when its
CURIE prefix is registered in the table. -/
def curieFor (tbl : List (String × String)) (rel : String) : Option Link :=
  match relPfx rel with
  | some p =>
    match assocLookup tbl p with
    | some href =>
        some { rel := "curies", name := p, href := href, templated := true }
    | none => none
  | none => none

/-- Instance.resolveCuries over an explicit relation-name sequence.  The
Go code iterates the links map in unspecified order; the order parameter
makes that explicit.  One entry is appended per matching relation. -/
def resolveCuriesOrdered (tbl : List (String × String)) (rels : List String) :
    List Link :=
  if tbl.isEmpty || rels.isEmpty then []
  else rels.filterMap (curieFor tbl)

/-- Instance.resolveCuries with the model's stored key order. -/
def resolveCuries (tbl : List (String × String)) (links : LinksMap) : List Link :=
  resolveCuriesOrdered tbl (links.map Prod.fst)

/-- hal.Envelope: the wrapped record (none for a nil Data), the links
map, and the embedded map (relation to pre-serialized bytes). -/
structure Envelope where
  data : Option GoData
  links : LinksMap
  embedded : List (String × Bytes)

/-- Hexadecimal digit characters, for JSON unicode escapes. -/
def hexDigit (n : Nat) : Char :=
  if n < 10 then Char.ofNat ('0'.toNat + n)
  else Char.ofNat ('a'.toNat + (n - 10))

/-- One character of encoding/json string escaping (Go's default encoder
HTML-escapes the angle brackets and ampersand, and escapes control
characters). -/
def escChar (c : Char) : List Char :=
  if c = '"' then ('\\' :: '"' :: [])
  else if c = '\\' then ('\\' :: '\\' :: [])
  else if c = '\n' then ('\\' :: 'n' :: [])
  else if c = '\x0d' then ('\\' :: 'r' :: [])
  else if c = '\t' then ('\\' :: 't' :: [])
  else if c = '<' || c = '>' || c = '&' || c.toNat < 32 then
    '\\' :: 'u' :: '0' :: '0' :: hexDigit (c.toNat / 16) :: hexDigit (c.toNat % 16) :: []
  else
    (c :: [])

/-- encoding/json serialization of a string value. -/
def jstr (s : String) : Bytes :=
  '"' :: (s.toList.flatMap escChar) ++ ('"' :: [])

/-- encoding/json serialization of a Link: fields in declared order,
Rel skipped, optional fields omitted when empty (omitempty). -/
def marshalLink (l : Link) : Bytes :=
  let fields : List Bytes :=
    (jstr "href" ++ ':' :: jstr l.href) ::
    ((if l.templated then ((jstr "templated" ++ ':' :: ('t' :: 'r' :: 'u' :: 'e' :: [])) :: []) else []) ++
     (if l.type = "" then [] else ((jstr "type" ++ ':' :: jstr l.type) :: [])) ++
     (if l.title = "" then [] else ((jstr "title" ++ ':' :: jstr l.title) :: [])) ++
     (if l.name = "" then [] else ((jstr "name" ++ ':' :: jstr l.name) :: [])) ++
     (if l.method = "" then [] else ((jstr "method" ++ ':' :: jstr l.method) :: [])))
  '{' :: (List.intercalate (',' :: []) fields) ++ ('}' :: [])

/-- encoding/json serialization of one element of an `[]any` slice. -/
def marshalElem : GoAnyElem → Bytes
  | .link l => marshalLink l
  | .linkSlice ls =>
      '[' :: (List.intercalate (',' :: []) (ls.map marshalLink)) ++ (']' :: [])

/-- encoding/json serialization of a links-map value. -/
def marshalLinkVal : LinkVal → Bytes
  | .link l => marshalLink l
  | .linkSlice ls =>
      '[' :: (List.intercalate (',' :: []) (ls.map marshalLink)) ++ (']' :: [])
  | .anySlice vs =>
      '[' :: (List.intercalate (',' :: []) (vs.map marshalElem)) ++ (']' :: [])

/-- Byte-wise lexicographic order on byte strings, the order in which Go
sorts map keys before emitting. -/
def bytesLE : List Char → List Char → Bool
  | [], _ => true
  | _ :: _, [] => false
  | a :: as, b :: bs =>
      if a.toNat < b.toNat then true
      else if b.toNat < a.toNat then false
      else bytesLE as bs

/-- Key order used when serializing a map. -/
def keyLE (s t : String) : Bool := bytesLE s.toList t.toList

/-- Insertion step for sorting map keys the way encoding/json does. -/
def insortKey {α : Type} (p : String × α) : List (String × α) → List (String × α)
  | [] => (p :: [])
  | q :: rest => if keyLE p.1 q.1 then p :: q :: rest else q :: insortKey p rest

/-- Sort an association list by key, ascending (encoding/json sorts map
keys before emitting). -/
def sortByKey {α : Type} (l : List (String × α)) : List (String × α) :=
  l.foldr insortKey []

/-- encoding/json serialization of the links map (sorted keys). -/
def marshalLinksMap (m : LinksMap) : Bytes :=
  '{' :: (List.intercalate (',' :: [])
    ((sortByKey m).map (fun p => jstr p.1 ++ ':' :: marshalLinkVal p.2))) ++ ('}' :: [])

/-- encoding/json serialization of the embedded map (sorted keys, values
already serialized). -/
def marshalEmbMap (m : List (String × Bytes)) : Bytes :=
  '{' :: (List.intercalate (',' :: [])
    ((sortByKey m).map (fun p => jstr p.1 ++ ':' :: p.2))) ++ ('}' :: [])

/-- Serialization of the metadata object built by marshalMeta: a map with
a "_links" entry iff the links map is non-empty and an "_embedded" entry
iff the embedded map is non-empty, keys sorted ("_embedded" before
"_links"); none when the map is empty. -/
def marshalMetaBytes (links : LinksMap) (emb : List (String × Bytes)) :
    Option Bytes :=
  if links.isEmpty && emb.isEmpty then none
  else
    some ('{' :: (List.intercalate (',' :: [])
      ((if emb.isEmpty then [] else ((jstr "_embedded" ++ ':' :: marshalEmbMap emb) :: [])) ++
       (if links.isEmpty then [] else ((jstr "_links" ++ ':' :: marshalLinksMap links) :: [])))) ++ ('}' :: []))

/-- The curie-injection step at the top of marshalMeta: resolve CURIEs
against the link map (iterated in the given key order) and store the
result under relation "curies" when non-empty. -/
def injectCuries (tbl : List (String × String)) (links : LinksMap)
    (order : List String) : LinksMap :=
  let cs := resolveCuriesOrdered tbl order
  if 0 < cs.length then addLinkRaw links "curies" (.linkSlice cs) else links

/-- Envelope.MarshalJSON (part_005), with the links-map iteration order
used by CURIE resolution made explicit.  Returns the output bytes
together with the links map as mutated by the curie injection. -/
def marshalJSONWith (tbl : List (String × String)) (e : Envelope)
    (order : List String) : Except String (Bytes × LinksMap) :=
  let dataBytes : Bytes :=
    match e.data with
    | none => []
    | some d => trimSpace d.json
  match checkJSONStructure dataBytes with
  | .error msg => .error msg
  | .ok (isNull, isEmptyObj) =>
    let links2 := injectCuries tbl e.links order
    let metaB := (marshalMetaBytes links2 e.embedded).getD []
    .ok (spliceJSON dataBytes metaB isNull isEmptyObj, links2)

/-- Envelope.MarshalJSON with the model's stored key order. -/
def marshalJSON (tbl : List (String × String)) (e : Envelope) :
    Except String (Bytes × LinksMap) :=
  marshalJSONWith tbl e (e.links.map Prod.fst)

/-- The output bytes of a marshal result (empty on error), used to
compare encoder outputs. -/
def exceptOutBytes (r : Except String (Bytes × LinksMap)) : Bytes :=
  match r with
  | .error _ => []
  | .ok (b, _) => b

/-- The effect of one addLinkRaw call on the value stored under its
relation: first value stored as-is, a second value forms a two-element
list, later values append to the list. -/
def combineVal : Option LinkVal → GoAnyElem → LinkVal
  | none, v => elemVal v
  | some (.anySlice s), v => .anySlice (s ++ (v :: []))
  | some (.link l), v => .anySlice ((.link l) :: v :: [])
  | some (.linkSlice ls), v => .anySlice ((.linkSlice ls) :: v :: [])

/-- Folding a sequence of added links onto the value stored under one
relation. -/
def foldAdd (v : Option LinkVal) (ls : List Link) : Option LinkVal :=
  ls.foldl (fun acc l => some (combineVal acc (.link l))) v

/-- The two strict-mode panics of computeLinks: a generator registered
for the pointer form of the wrapped value's type, or no generator for a
struct-like type. -/
inductive StrictPanic where
  | mismatch : GoType → StrictPanic
  | missing : GoType → StrictPanic
deriving DecidableEq, Repr

/-- Envelope.computeLinks: nil data computes nothing; a registered
generator is invoked and its links added; otherwise strict mode panics
on a pointer-form registration mismatch or on an unregistered
struct-like type, and permissive mode falls through silently. -/
def computeLinks (inst : Instance) (d : Option GoData) :
    Except StrictPanic (List Link) :=
  match d with
  | none => .ok []
  | some v =>
    match lookupGenerator inst v.type with
    | some gen => .ok (gen v)
    | none =>
      if inst.strictMode then
        if (lookupGenerator inst (.ptrT v.type)).isSome then
          .error (.mismatch v.type)
        else if isStructLike v.type then
          .error (.missing v.type)
        else .ok []
      else .ok []

/-- Instance.Wrap: a fresh envelope with empty maps, whose links are then
computed; a strict-mode panic aborts the wrap. -/
def Wrap (inst : Instance) (d : Option GoData) : Except StrictPanic Envelope :=
  match computeLinks inst d with
  | .error p => .error p
  | .ok ls => .ok { data := d, links := addLinks [] ls, embedded := [] }

/-- hal.CollectionPage: links map, embedded map holding the items
sequence, item count and caller-supplied total. -/
structure CollectionPage where
  links : LinksMap
  embedded : List (String × List Envelope)
  count : Nat
  total : Int

/-- The dynamic value passed to Collection as its items argument: either
a slice of records or a value of non-slice kind. -/
inductive CollectionItems where
  | slice : List GoData → CollectionItems
  | nonSlice : GoType → CollectionItems

/-- The fatal outcomes of Collection: the non-slice panic, or a
strict-mode panic propagated from wrapping an item. -/
inductive CollErr where
  | notSlicePanic : CollErr
  | wrapPanic : StrictPanic → CollErr
deriving DecidableEq, Repr

/-- The item-wrapping loop of Collection, left to right; the first
strict-mode panic aborts the whole call. -/
def seqWrap (inst : Instance) : List GoData → Except StrictPanic (List Envelope)
  | [] => .ok []
  | d :: ds =>
    match Wrap inst (some d) with
    | .error p => .error p
    | .ok e =>
      match seqWrap inst ds with
      | .error p => .error p
      | .ok es => .ok (e :: es)

/-- Instance.Collection: panic on non-slice input; otherwise wrap each
item in order, store the caller's link under the fixed key "self", the
items under "items", count = length, total = caller's value. -/
def Collection (inst : Instance) (items : CollectionItems) (total : Int)
    (selfLink : Link) : Except CollErr CollectionPage :=
  match items with
  | .nonSlice _ => .error .notSlicePanic
  | .slice ds =>
    match seqWrap inst ds with
    | .error p => .error (.wrapPanic p)
    | .ok es =>
      .ok { links := [("self", .link selfLink)]
          , embedded := [("items", es)]
          , count := ds.length
          , total := total }


/-! ## Concrete fixtures (taken from the repository's examples and tests) -/

/-- The CURIE table of the auto-injection test: acme maps to a
template. -/
def tblAcme : List (String × String) := [("acme", "https://docs/\x7brel\x7d")]

/-- An envelope as produced by wrapping an empty struct with one
generated link of relation "acme:test" (auto-injection test). -/
def envAcme : Envelope :=
  { data := some { type := .ptrT (.structT "User"), json := ('{' :: '}' :: []) }
  , links := [("acme:test", .link { rel := "acme:test", href := "/x" })]
  , embedded := [] }

/-- A two-prefix CURIE table, for the iteration-order analysis. -/
def tblAB : List (String × String) := [("a", "/A"), ("b", "/B")]

/-- An envelope whose two link relations use two distinct registered
CURIE prefixes. -/
def envAB : Envelope :=
  { data := some { type := .ptrT (.structT "X"), json := ('{' :: '}' :: []) }
  , links := [("a:x", .link { rel := "a:x", href := "/1" })
             , ("b:y", .link { rel := "b:y", href := "/2" })]
  , embedded := [] }

/-- A record of primitive type int whose external encoding is the bare
number 42 (the non-object test wraps the value 42). -/
def dInt : GoData := { type := .primT "int", json := ('4' :: '2' :: []) }

/-- A plain struct value of type User. -/
def dUser : GoData :=
  { type := .structT "User", json := ('{' :: '}' :: []) }

/-- A pointer-to-struct User record, like the strict-mode test's
wrapped &Unknown\x7b\x7d. -/
def dUserPtr : GoData :=
  { type := .ptrT (.structT "User"), json := ('{' :: '}' :: []) }

/-- A record whose external encoding is the object from the README
example. -/
def dAlice : GoData :=
  { type := .ptrT (.structT "User")
  , json := "\x7b\"id\":101,\"name\":\"Alice\"\x7d".toList }

/-- A strict-mode registry with a generator only for the pointer type of
User (strict-mode test). -/
def instPtrOnly : Instance :=
  { generators := [(.ptrT (.structT "User"), fun _ => [])]
  , curies := []
  , strictMode := true }

/-- A strict-mode registry with no generators at all. -/
def instStrictEmpty : Instance :=
  { generators := [], curies := [], strictMode := true }

/-- A strict-mode registry with a generator registered only for the
pointer type of the primitive int. -/
def instPrimPtr : Instance :=
  { generators := [(.ptrT (.primT "int"), fun _ => [])]
  , curies := []
  , strictMode := true }

/-- A permissive registry with no generators (hal.New()). -/
def instPerm : Instance :=
  { generators := [], curies := [], strictMode := false }

/-- An envelope over the bare-number record with links and embedded
entries present, for the registry-state-independence part. -/
def env42 : Envelope :=
  { data := some dInt
  , links := [("self", .link { rel := "self", href := "/a" })]
  , embedded := [("x", ('{' :: '}' :: []))] }

/-! ## Helper lemmas -/

theorem lookupRel_setRel_some (m : LinksMap) (r : String) (v w : LinkVal)
    (x : String) (h : lookupRel m r = some w) :
    lookupRel (setRel m r v) x = if r = x then some v else lookupRel m x := by
  induction m generalizing w with
  | nil => simp [lookupRel] at h
  | cons p rest ih =>
    obtain ⟨k, u⟩ := p
    by_cases hk : k = r
    · by_cases hx : r = x
      · have hkx : k = x := hk.trans hx
        simp [setRel, lookupRel, hk, hkx, hx]
      · have hkx : ¬ k = x := fun hh => hx (hk.symm.trans hh)
        simp [setRel, lookupRel, hk, hkx, hx]
    · simp only [lookupRel, if_neg hk] at h
      by_cases hx : k = x
      · have hrx : ¬ r = x := fun hh => hk (hx.trans hh.symm)
        have hxr : ¬ x = r := fun hh => hrx hh.symm
        simp [setRel, lookupRel, hk, hx, hrx, hxr]
      · simp [setRel, lookupRel, hk, hx, ih _ h]

theorem lookupRel_append_single (m : LinksMap) (r : String) (v : LinkVal)
    (x : String) (h : lookupRel m r = none) :
    lookupRel (m ++ ((r, v) :: [])) x =
      if r = x then some v else lookupRel m x := by
  induction m with
  | nil => simp [lookupRel]
  | cons p rest ih =>
    obtain ⟨k, u⟩ := p
    by_cases hkr : k = r
    · simp [lookupRel, hkr] at h
    · simp only [lookupRel, if_neg hkr] at h
      by_cases hx : k = x
      · have hrx : ¬ r = x := fun hh => hkr (hx.trans hh.symm)
        simp [lookupRel, hx, hrx]
      · simp [lookupRel, hx, ih h]

theorem lookupRel_addLinkRaw (m : LinksMap) (rel : String) (val : GoAnyElem)
    (x : String) :
    lookupRel (addLinkRaw m rel val) x =
      if rel = x then some (combineVal (lookupRel m rel) val)
      else lookupRel m x := by
  unfold addLinkRaw
  cases h : lookupRel m rel with
  | none =>
    rw [lookupRel_append_single m rel (elemVal val) x h]
    by_cases hx : rel = x <;> simp [hx, combineVal]
  | some e =>
    cases e with
    | link l => rw [lookupRel_setRel_some m rel _ _ x h]; simp [combineVal]
    | linkSlice ls => rw [lookupRel_setRel_some m rel _ _ x h]; simp [combineVal]
    | anySlice s => rw [lookupRel_setRel_some m rel _ _ x h]; simp [combineVal]

theorem lookupRel_AddLink (m : LinksMap) (l : Link) (x : String) :
    lookupRel (AddLink m l) x =
      if l.rel = x then some (combineVal (lookupRel m l.rel) (.link l))
      else lookupRel m x := by
  unfold AddLink
  exact lookupRel_addLinkRaw m l.rel (.link l) x

theorem lookupRel_addLinks (ls : List Link) (m : LinksMap) (x : String) :
    lookupRel (addLinks m ls) x =
      foldAdd (lookupRel m x) (ls.filter (fun l => l.rel = x)) := by
  induction ls generalizing m with
  | nil => simp [addLinks, foldAdd]
  | cons l rest ih =>
    show lookupRel (addLinks (AddLink m l) rest) x = _
    rw [ih]
    by_cases hx : l.rel = x
    · subst hx
      simp [List.filter, foldAdd, lookupRel_AddLink]
    · simp [List.filter, hx, foldAdd, lookupRel_AddLink]

theorem foldAdd_anySlice (ls : List Link) (s : List GoAnyElem) :
    foldAdd (some (.anySlice s)) ls =
      some (.anySlice (s ++ ls.map GoAnyElem.link)) := by
  induction ls generalizing s with
  | nil => simp [foldAdd]
  | cons l rest ih =>
    show foldAdd (some (combineVal (some (.anySlice s)) (.link l))) rest = _
    rw [show combineVal (some (.anySlice s)) (.link l)
          = .anySlice (s ++ (GoAnyElem.link l :: [])) from rfl]
    rw [ih]
    simp

/-- A link map with two relations sharing the registered CURIE prefix
acme. -/
def linksAcmeAB : LinksMap :=
  [("acme:a", .link { rel := "acme:a", href := "/1" })
  , ("acme:b", .link { rel := "acme:b", href := "/2" })]

/-- A link map with a single acme-prefixed relation (auto-injection
test). -/
def linksAcmeSingle : LinksMap :=
  [("acme:test", .link { rel := "acme:test", href := "/x" })]

/-- The synthetic curies link the acme table produces. -/
def curieAcme : Link :=
  { rel := "curies", href := "https://docs/\x7brel\x7d"
  , templated := true, name := "acme" }

/-- An envelope with one acme-prefixed relation and one plain relation,
so that exactly one curies entry resolves. -/
def envAcmeSelf : Envelope :=
  { data := some { type := .ptrT (.structT "User"), json := ('{' :: '}' :: []) }
  , links := [("acme:test", .link { rel := "acme:test", href := "/x" })
             , ("self", .link { rel := "self", href := "/u" })]
  , embedded := [] }

/-- One encode pass over an envelope, keeping the links map as mutated by
the curie injection (MarshalJSON writes through the envelope's pointer
receiver, so the injected curies persist into later encodes). -/
def encodeOnce (tbl : List (String × String)) (e : Envelope) : Envelope :=
  match marshalJSON tbl e with
  | .error _ => e
  | .ok (_, l2) => { e with links := l2 }

/-! ## Claim theorems -/

/-- C1: the splicer's combine step follows the four-case rule: empty
metadata with an absent (nil-serialized) record yields exactly the two
bytes of an empty object; empty metadata with a non-null record yields
the record bytes unchanged; non-empty metadata with a null or
empty-object record yields the metadata bytes unchanged; non-empty
metadata with a populated-object record yields the record bytes with the
trailing closing brace removed, a comma, and the metadata bytes with the
leading opening brace removed. -/
theorem spliceJSON_combine_cases (data meta d m : Bytes) (b : Bool) :
    (spliceJSON data [] true b = ('{' :: '}' :: []))
    ∧ (spliceJSON data [] false b = data)
    ∧ (meta ≠ [] → spliceJSON data meta true b = meta)
    ∧ (meta ≠ [] → spliceJSON data meta false true = meta)
    ∧ (data = d ++ ('}' :: []) → meta = '{' :: m →
        spliceJSON data meta false false = d ++ ',' :: m) := by
  refine ⟨by simp [spliceJSON], by simp [spliceJSON], ?_, ?_, ?_⟩
  · intro h
    simp [spliceJSON, List.length_eq_zero, h]
  · intro h
    simp [spliceJSON, List.length_eq_zero, h]
  · intro hd hm
    subst hd
    subst hm
    simp [spliceJSON]

/-- Witness for C1 at concrete inputs: splicing the README record bytes
with a metadata object, and the degenerate cases. -/
theorem spliceJSON_combine_cases_witness :
    spliceJSON ("\x7b\"id\":101\x7d".toList) ("\x7b\"m\":2\x7d".toList) false false
      = ("\x7b\"id\":101,\"m\":2\x7d".toList)
    ∧ spliceJSON ("\x7b\"id\":101\x7d".toList) ("\x7b\"m\":2\x7d".toList) true false
      = ("\x7b\"m\":2\x7d".toList)
    ∧ spliceJSON ("\x7b\x7d".toList) ("\x7b\"m\":2\x7d".toList) false true
      = ("\x7b\"m\":2\x7d".toList)
    ∧ spliceJSON [] [] true false = ('{' :: '}' :: []) := by
  refine ⟨?_, ?_, ?_, ?_⟩
  · exact (spliceJSON_combine_cases ("\x7b\"id\":101\x7d".toList)
      ("\x7b\"m\":2\x7d".toList) ("\x7b\"id\":101".toList)
      ("\"m\":2\x7d".toList) false).2.2.2.2 (by decide) (by decide)
  · exact (spliceJSON_combine_cases ("\x7b\"id\":101\x7d".toList)
      ("\x7b\"m\":2\x7d".toList) [] [] false).2.2.1 (by decide)
  · exact (spliceJSON_combine_cases ("\x7b\x7d".toList)
      ("\x7b\"m\":2\x7d".toList) [] [] false).2.2.2.1 (by decide)
  · exact (spliceJSON_combine_cases [] [] [] [] false).1

/-- C2: for every sequence of AddLink calls starting from an empty link
map, the value stored under a relation is: absent when no added link
used it, the single link itself after one addition, and the ordered list
of all links added under it (in insertion order) after two or more
additions — a relation is never silently overwritten. -/
theorem addLink_never_overwrites (ls : List Link) (r : String) :
    lookupRel (addLinks [] ls) r =
      match ls.filter (fun l => l.rel = r) with
      | [] => none
      | (l :: []) => some (.link l)
      | l₁ :: l₂ :: rest =>
          some (.anySlice ((l₁ :: l₂ :: rest).map GoAnyElem.link)) := by
  rw [lookupRel_addLinks]
  have h0 : lookupRel [] r = none := rfl
  rw [h0]
  cases hf : ls.filter (fun l => l.rel = r) with
  | nil => simp [foldAdd]
  | cons a t =>
    cases t with
    | nil => simp [foldAdd, combineVal, elemVal]
    | cons a2 t2 =>
      have h1 : foldAdd none (a :: a2 :: t2) =
          foldAdd (some (.anySlice (GoAnyElem.link a :: GoAnyElem.link a2 :: []))) t2 := rfl
      rw [h1, foldAdd_anySlice]
      simp

/-- C5: whenever the wrapped record's trimmed serialization is a
non-object top-level JSON value (non-empty, not the null literal, first
byte not an opening brace), encoding fails with the data-shape error,
for every registry table, link map, embedded map and iteration order. -/
theorem marshalJSON_nonObject_fails (tbl : List (String × String))
    (e : Envelope) (d : GoData) (order : List String)
    (hd : e.data = some d)
    (h1 : trimSpace d.json ≠ [])
    (h2 : trimSpace d.json ≠ ('n' :: 'u' :: 'l' :: 'l' :: []))
    (h3 : (trimSpace d.json).head? ≠ some '{') :
    marshalJSONWith tbl e order
      = .error "hal: data must be a JSON object to splice" := by
  have hbe : (trimSpace d.json).isEmpty = false := by
    cases hx : trimSpace d.json with
    | nil => exact absurd hx h1
    | cons c t => rfl
  have hcheck : checkJSONStructure (trimSpace d.json)
      = .error "hal: data must be a JSON object to splice" := by
    simp [checkJSONStructure, hbe, h2, h3]
  simp [marshalJSONWith, hd, hcheck]

/-- Witness for C5: the bare number 42 with a non-empty table, link map
and embedded map still fails the encode. -/
theorem marshalJSON_nonObject_fails_witness :
    marshalJSONWith [("p", "/P")] env42 ["self"]
      = .error "hal: data must be a JSON object to splice" :=
  marshalJSON_nonObject_fails [("p", "/P")] env42 dInt ["self"]
    rfl (by decide) (by decide) (by decide)
theorem curieFor_nil (rel : String) : curieFor [] rel = none := by
  unfold curieFor
  cases relPfx rel with
  | none => rfl
  | some p => rfl

theorem curieFor_some_spec (tbl : List (String × String)) (rel : String)
    (l : Link) (h : curieFor tbl rel = some l) :
    l.rel = "curies" ∧ l.templated = true
      ∧ assocLookup tbl l.name = some l.href ∧ relPfx rel = some l.name := by
  cases hp : relPfx rel with
  | none => simp [curieFor, hp] at h
  | some p =>
    cases ha : assocLookup tbl p with
    | none => simp [curieFor, hp, ha] at h
    | some href =>
      simp only [curieFor, hp, ha] at h
      rw [Option.some.injEq] at h
      subst h
      exact ⟨rfl, rfl, ha, rfl⟩

theorem length_filterMap_countP {α β : Type} (f : α → Option β) (l : List α) :
    (l.filterMap f).length = l.countP (fun a => (f a).isSome) := by
  induction l with
  | nil => rfl
  | cons a t ih =>
    cases hf : f a with
    | none => simp [List.filterMap_cons, List.countP_cons, hf, ih]
    | some b => simp [List.filterMap_cons, List.countP_cons, hf, ih]


/-- C4 counterexample: with the single registered prefix acme used by the
two relations of linksAcmeAB, resolveCuries emits two curies entries
(both named acme), not exactly one per distinct prefix as the claim
states. -/
theorem resolveCuries_shared_pfx_counterexample :
    (resolveCuries tblAcme linksAcmeAB).map Link.name = ("acme" :: "acme" :: [])
    ∧ (resolveCuries tblAcme linksAcmeAB).length = 2 :=
  ⟨rfl, rfl⟩

/-- C4 amended: resolveCuries emits exactly one synthetic curies link per
relation name whose prefix (the part before a ':' at positive index) is
registered — a prefix shared by several relations is emitted once per
such relation, not once overall.  Every emitted entry carries relation
"curies", the templated flag, the registered template as target and a
used prefix as name; when no relation matches, the result is empty. -/
theorem resolveCuries_per_matching_relation (tbl : List (String × String))
    (links : LinksMap) :
    ((resolveCuries tbl links).length
        = links.countP (fun p => (curieFor tbl p.1).isSome))
    ∧ (∀ l ∈ resolveCuries tbl links,
        l.rel = "curies" ∧ l.templated = true
          ∧ assocLookup tbl l.name = some l.href
          ∧ ∃ p ∈ links, relPfx p.1 = some l.name)
    ∧ ((∀ p ∈ links, curieFor tbl p.1 = none) → resolveCuries tbl links = []) := by
  unfold resolveCuries resolveCuriesOrdered
  by_cases hg : (tbl.isEmpty || (links.map Prod.fst).isEmpty) = true
  · rw [if_pos hg]
    have hz : links.countP (fun p => (curieFor tbl p.1).isSome) = 0 := by
      cases (Bool.or_eq_true _ _).mp hg with
      | inl ht =>
        have htn : tbl = [] := List.isEmpty_iff.mp ht
        subst htn
        simp [List.countP_eq_zero, curieFor_nil]
      | inr hl =>
        have hln : links = [] := by
          have := List.isEmpty_iff.mp hl
          exact List.map_eq_nil_iff.mp this
        subst hln
        rfl
    exact ⟨by simpa using hz.symm, by simp, fun _ => rfl⟩
  · rw [if_neg hg]
    refine ⟨?_, ?_, ?_⟩
    · rw [List.filterMap_map, length_filterMap_countP]
      rfl
    · intro l hl
      rw [List.filterMap_map] at hl
      obtain ⟨p, hpmem, hps⟩ := List.mem_filterMap.mp hl
      obtain ⟨h1, h2, h3, h4⟩ := curieFor_some_spec tbl p.1 l hps
      exact ⟨h1, h2, h3, p, hpmem, h4⟩
    · intro hall
      rw [List.filterMap_map]
      exact List.filterMap_eq_nil_iff.mpr (fun p hp => hall p hp)

/-- Witness for C4 amended: the single acme relation yields the one
synthetic entry with the registered template, and an unmatched table
yields nothing. -/
theorem resolveCuries_per_matching_relation_witness :
    (curieAcme.rel = "curies" ∧ curieAcme.templated = true
      ∧ assocLookup tblAcme curieAcme.name = some curieAcme.href
      ∧ ∃ p ∈ linksAcmeSingle, relPfx p.1 = some curieAcme.name)
    ∧ resolveCuries [("zzz", "/Z")] linksAcmeSingle = [] :=
  ⟨(resolveCuries_per_matching_relation tblAcme linksAcmeSingle).2.1
      curieAcme (by decide),
   (resolveCuries_per_matching_relation [("zzz", "/Z")] linksAcmeSingle).2.2
      (by decide)⟩

/-- C3 counterexample: in strict mode, wrapping a value of the
unregistered primitive type int does fail fatally when a generator is
registered for the pointer form of int — the claim's "wrapping a value
of an unregistered non-structured (primitive) type never fails" is false
at this input. -/
theorem strict_unregistered_prim_counterexample :
    instPrimPtr.strictMode = true
    ∧ lookupGenerator instPrimPtr dInt.type = none
    ∧ isStructLike dInt.type = false
    ∧ computeLinks instPrimPtr (some dInt) = .error (.mismatch (.primT "int")) :=
  ⟨rfl, rfl, rfl, rfl⟩

/-- C3 amended: in strict mode, a value whose type has no generator but
whose pointer type has one always fails fatally with the type-mismatch
panic (whatever the kind of the type); an unregistered struct-like type
with no pointer-form generator always fails fatally with the
missing-generator panic; an unregistered non-struct-like type with no
pointer-form generator never fails; and in permissive mode a missing
generator is never an error. -/
theorem computeLinks_strict_cases (inst : Instance) (d : GoData) :
    (inst.strictMode = true → lookupGenerator inst d.type = none →
      (lookupGenerator inst (.ptrT d.type)).isSome = true →
      computeLinks inst (some d) = .error (.mismatch d.type))
    ∧ (inst.strictMode = true → lookupGenerator inst d.type = none →
      lookupGenerator inst (.ptrT d.type) = none → isStructLike d.type = true →
      computeLinks inst (some d) = .error (.missing d.type))
    ∧ (inst.strictMode = true → lookupGenerator inst d.type = none →
      lookupGenerator inst (.ptrT d.type) = none → isStructLike d.type = false →
      computeLinks inst (some d) = .ok [])
    ∧ (inst.strictMode = false →
      ∀ msg : StrictPanic, computeLinks inst (some d) ≠ .error msg) := by
  refine ⟨?_, ?_, ?_, ?_⟩
  · intro hs hn hp
    simp [computeLinks, hn, hs, hp]
  · intro hs hn hp hstruct
    simp [computeLinks, hn, hs, hp, hstruct]
  · intro hs hn hp hstruct
    simp [computeLinks, hn, hs, hp, hstruct]
  · intro hs msg
    cases hgen : lookupGenerator inst d.type with
    | none => simp [computeLinks, hgen, hs]
    | some gen => simp [computeLinks, hgen]

/-- Witness for C3 amended, at the strict-mode tests' concrete
registries: value-for-pointer mismatch, missing generator for a
pointer-to-struct, an untouched primitive, and permissive mode. -/
theorem computeLinks_strict_cases_witness :
    computeLinks instPtrOnly (some dUser) = .error (.mismatch (.structT "User"))
    ∧ computeLinks instStrictEmpty (some dUserPtr)
        = .error (.missing (.ptrT (.structT "User")))
    ∧ computeLinks instStrictEmpty (some dInt) = .ok []
    ∧ computeLinks instPerm (some dUser) ≠ .error (.missing (.structT "User")) :=
  ⟨(computeLinks_strict_cases instPtrOnly dUser).1 rfl rfl rfl,
   (computeLinks_strict_cases instStrictEmpty dUserPtr).2.1 rfl rfl rfl rfl,
   (computeLinks_strict_cases instStrictEmpty dInt).2.2.1 rfl rfl rfl rfl,
   (computeLinks_strict_cases instPerm dUser).2.2.2 rfl (.missing (.structT "User"))⟩

theorem seqWrap_ok_spec (inst : Instance) (ds : List GoData)
    (es : List Envelope) (h : seqWrap inst ds = .ok es) :
    es.length = ds.length
    ∧ (∀ i, i < ds.length →
        ∃ d e, ds[i]? = some d ∧ es[i]? = some e ∧ Wrap inst (some d) = .ok e) := by
  induction ds generalizing es with
  | nil =>
    cases h
    exact ⟨rfl, fun i hi => absurd hi (by simp)⟩
  | cons d rest ih =>
    unfold seqWrap at h
    cases hw : Wrap inst (some d) with
    | error p => rw [hw] at h; exact absurd h (by simp)
    | ok e =>
      rw [hw] at h
      cases hs : seqWrap inst rest with
      | error p => rw [hs] at h; exact absurd h (by simp)
      | ok es2 =>
        rw [hs] at h
        injection h with h2
        subst h2
        obtain ⟨hlen, hpt⟩ := ih es2 hs
        refine ⟨by simp [hlen], fun i hi => ?_⟩
        cases i with
        | zero => exact ⟨d, e, by simp, by simp, hw⟩
        | succ j =>
          obtain ⟨d2, e2, hd2, he2, hwe⟩ := hpt j (by simpa using hi)
          exact ⟨d2, e2, by simpa using hd2, by simpa using he2, hwe⟩

/-- C6 counterexample: a slice of one struct item under a strict-mode
registry with no generators makes Collection fail fatally rather than
return a CollectionPage — the claim's "for every slice Collection
returns a CollectionPage" is false at this input. -/
theorem Collection_strict_slice_counterexample :
    Collection instStrictEmpty (.slice (dUser :: [])) 5
        { rel := "self", href := "/users" }
      = .error (.wrapPanic (.missing (.structT "User"))) := rfl

/-- C6 amended: whenever wrapping every item of the slice succeeds (in
permissive mode always), Collection returns a page with count equal to
the item count, total equal to the caller's value with no validation
against count, the items embedded in input order (each the wrap of the
corresponding input), and the self link stored; a non-slice input always
fails fatally. -/
theorem Collection_slice_counts (inst : Instance) (ds : List GoData)
    (total : Int) (sl : Link) (es : List Envelope)
    (h : seqWrap inst ds = .ok es) :
    (Collection inst (.slice ds) total sl
      = .ok { links := [("self", .link sl)], embedded := [("items", es)]
            , count := ds.length, total := total })
    ∧ es.length = ds.length
    ∧ (∀ i, i < ds.length →
        ∃ d e, ds[i]? = some d ∧ es[i]? = some e ∧ Wrap inst (some d) = .ok e)
    ∧ (∀ t : GoType,
        Collection inst (.nonSlice t) total sl = .error .notSlicePanic) := by
  obtain ⟨hlen, hpt⟩ := seqWrap_ok_spec inst ds es h
  exact ⟨by simp [Collection, h], hlen, hpt, fun t => rfl⟩

/-- Witness for C6 amended: two items under the permissive empty
registry, with a caller total of 1 smaller than the count of 2. -/
theorem Collection_slice_counts_witness :
    Collection instPerm (.slice (dUser :: dUserPtr :: [])) 1
        { rel := "self", href := "/users" }
      = .ok { links := [("self", .link { rel := "self", href := "/users" })]
            , embedded := [("items",
                ({ data := some dUser, links := [], embedded := [] } : Envelope) ::
                ({ data := some dUserPtr, links := [], embedded := [] } : Envelope) :: [])]
            , count := 2, total := 1 } :=
  (Collection_slice_counts instPerm (dUser :: dUserPtr :: []) 1
    { rel := "self", href := "/users" }
    (({ data := some dUser, links := [], embedded := [] } : Envelope) ::
     ({ data := some dUserPtr, links := [], embedded := [] } : Envelope) :: [])
    rfl).1

/-- C9: whenever Collection returns a page, the caller-supplied link is
stored under the fixed relation key "self", whatever the link's own Rel
field says — the links map is exactly the singleton binding of "self". -/
theorem Collection_selfLink_fixed_key (inst : Instance)
    (items : CollectionItems) (total : Int) (l : Link) (page : CollectionPage)
    (h : Collection inst items total l = .ok page) :
    page.links = [("self", .link l)] := by
  cases items with
  | nonSlice t => exact absurd h (by simp [Collection])
  | slice ds =>
    cases hs : seqWrap inst ds with
    | error p =>
      have : Collection inst (.slice ds) total l = .error (.wrapPanic p) := by
        simp [Collection, hs]
      rw [this] at h
      exact absurd h (by simp)
    | ok es =>
      have : Collection inst (.slice ds) total l
          = .ok { links := [("self", .link l)], embedded := [("items", es)]
                , count := ds.length, total := total } := by
        simp [Collection, hs]
      rw [this] at h
      injection h with h2
      rw [← h2]

/-- Witness for C9: a link whose Rel field is "next" is still stored
under "self". -/
theorem Collection_selfLink_fixed_key_witness :
    ({ links := [("self", .link { rel := "next", href := "/next" })]
     , embedded := [("items",
         ({ data := some dUser, links := [], embedded := [] } : Envelope) :: [])]
     , count := 1, total := 1 } : CollectionPage).links
      = [("self", .link { rel := "next", href := "/next" })] :=
  Collection_selfLink_fixed_key instPerm (.slice (dUser :: [])) 1
    { rel := "next", href := "/next" } _ rfl

/-- C7 counterexample: a record with no registered generator wrapped by
the permissive registry whose own encoding is the bare number 42 — the
envelope encoding is the data-shape error, not bytes identical to the
record's encoding. -/
theorem marshal_passthrough_counterexample :
    lookupGenerator instPerm dInt.type = none
    ∧ Wrap instPerm (some dInt)
        = .ok { data := some dInt, links := [], embedded := [] }
    ∧ marshalJSON instPerm.curies { data := some dInt, links := [], embedded := [] }
        = .error "hal: data must be a JSON object to splice" :=
  ⟨rfl, rfl, rfl⟩

theorem checkJSONStructure_obj (b : Bytes) (h : b.head? = some '{') :
    checkJSONStructure b = .ok (false, true)
    ∨ checkJSONStructure b = .ok (false, false) := by
  have hne : b.isEmpty = false := by
    cases hx : b with
    | nil => rw [hx] at h; exact absurd h (by simp)
    | cons a t => rfl
  have hnn : ¬ b = ('n' :: 'u' :: 'l' :: 'l' :: []) := by
    intro hh
    rw [hh] at h
    exact absurd h (by decide)
  unfold checkJSONStructure
  rw [if_neg (by simp [hne, hnn])]
  rw [if_neg (by simp [h])]
  split
  · exact Or.inl rfl
  · exact Or.inr rfl

/-- C7 amended: for every record with no registered generator wrapped by
a permissive-mode registry, whose serialization is a JSON object (first
byte an opening brace, no surrounding whitespace), encoding the envelope
yields exactly the record's own encoding bytes; records serializing to
null or to a non-object value are excluded (the former encodes to an
empty object, the latter fails). -/
theorem marshal_passthrough_object (inst : Instance) (d : GoData)
    (e : Envelope)
    (hperm : inst.strictMode = false)
    (hnogen : lookupGenerator inst d.type = none)
    (hwrap : Wrap inst (some d) = .ok e)
    (hobj : (trimSpace d.json).head? = some '{')
    (hws : trimSpace d.json = d.json) :
    marshalJSON inst.curies e = .ok (d.json, []) := by
  have hc : computeLinks inst (some d) = .ok [] := by
    simp [computeLinks, hnogen, hperm]
  unfold Wrap at hwrap
  rw [hc] at hwrap
  injection hwrap with h2
  subst h2
  have hobj' : d.json.head? = some '{' := hws ▸ hobj
  have hinj : injectCuries inst.curies [] ([] : List String) = [] := by
    simp [injectCuries, resolveCuriesOrdered]
  rcases checkJSONStructure_obj d.json hobj' with hck | hck <;>
    simp [marshalJSON, marshalJSONWith, addLinks, hws, hck, hinj,
      marshalMetaBytes, spliceJSON]

/-- Witness for C7 amended: the README record encoding to the object
with id 101 and name Alice passes through unchanged. -/
theorem marshal_passthrough_object_witness :
    marshalJSON instPerm.curies { data := some dAlice, links := [], embedded := [] }
      = .ok (dAlice.json, []) :=
  marshal_passthrough_object instPerm dAlice
    { data := some dAlice, links := [], embedded := [] }
    rfl rfl rfl (by decide) (by decide)

set_option maxRecDepth 100000 in
/-- C8 counterexample: the same envelope and registry encoded under two
iteration orders of the same link-map keys (both permutations of the
stored keys, as Go map iteration may produce either) give different
output bytes: the two curies entries appear in different array orders. -/
theorem marshal_iteration_order_counterexample :
    envAB.links.map Prod.fst = ("a:x" :: "b:y" :: [])
    ∧ (("a:x" :: "b:y" :: []) : List String).Perm ("b:y" :: "a:x" :: [])
    ∧ exceptOutBytes (marshalJSONWith tblAB envAB ("a:x" :: "b:y" :: []))
      ≠ exceptOutBytes (marshalJSONWith tblAB envAB ("b:y" :: "a:x" :: [])) := by
  refine ⟨rfl, by decide, by decide⟩

/-- C8 amended: encoding is a deterministic function of the envelope, the
registry and the link-map iteration order; whenever at most one curies
entry resolves, the output is moreover independent of the iteration
order (any two orders that are permutations of each other give identical
bytes), so nondeterminism is confined to the order of a multi-entry
curies array. -/
theorem marshal_deterministic_upto_order (tbl : List (String × String))
    (e : Envelope) (o1 o2 : List String)
    (hperm : o1.Perm o2)
    (hlen : (resolveCuriesOrdered tbl o1).length ≤ 1) :
    marshalJSONWith tbl e o1 = marshalJSONWith tbl e o2 := by
  have hres : resolveCuriesOrdered tbl o1 = resolveCuriesOrdered tbl o2 := by
    by_cases ht : tbl.isEmpty = true
    · unfold resolveCuriesOrdered
      simp [ht]
    · by_cases h1 : o1 = []
      · have h2 : o2 = [] := by
          subst h1
          exact List.perm_nil.mp hperm.symm
        subst h1
        subst h2
        rfl
      · have h2 : ¬ o2 = [] := fun hh =>
          h1 (List.perm_nil.mp (hh ▸ hperm))
        have hg1 : ¬ (tbl.isEmpty || o1.isEmpty) = true := by
          simp [ht, List.isEmpty_iff, h1]
        have hg2 : ¬ (tbl.isEmpty || o2.isEmpty) = true := by
          simp [ht, List.isEmpty_iff, h2]
        have hlen2 : (o1.filterMap (curieFor tbl)).length ≤ 1 := by
          have hru : resolveCuriesOrdered tbl o1 = o1.filterMap (curieFor tbl) := by
            unfold resolveCuriesOrdered
            rw [if_neg hg1]
          rw [hru] at hlen
          exact hlen
        have hp2 : (o1.filterMap (curieFor tbl)).Perm (o2.filterMap (curieFor tbl)) :=
          hperm.filterMap _
        unfold resolveCuriesOrdered
        rw [if_neg hg1, if_neg hg2]
        cases hc : o1.filterMap (curieFor tbl) with
        | nil =>
          rw [hc] at hp2
          exact (List.nil_perm.mp hp2).symm
        | cons a t =>
          cases t with
          | nil =>
            rw [hc] at hp2
            exact List.singleton_perm.mp hp2
          | cons a2 t2 =>
            rw [hc] at hlen2
            simp at hlen2
  simp only [marshalJSONWith, injectCuries, hres]

/-- Witness for C8 amended: the acme envelope with a second unprefixed
relation encodes identically under the two possible iteration orders,
since only one curies entry resolves. -/
theorem marshal_deterministic_upto_order_witness :
    marshalJSONWith tblAcme envAcmeSelf ("acme:test" :: "self" :: [])
      = marshalJSONWith tblAcme envAcmeSelf ("self" :: "acme:test" :: []) :=
  marshal_deterministic_upto_order tblAcme envAcmeSelf
    ("acme:test" :: "self" :: []) ("self" :: "acme:test" :: [])
    (by decide) (by decide)

set_option maxRecDepth 100000 in
/-- C10: encoding the acme envelope resolves its CURIE prefix and mutates
the link map, storing the resolved entry under "curies"; encoding the
resulting envelope again appends a second curies value (the stored entry
becomes a two-element list of link slices) and produces different,
strictly longer output bytes than the first encoding. -/
theorem marshal_curie_injection_not_idempotent :
    lookupRel (encodeOnce tblAcme envAcme).links "curies"
      = some (.linkSlice (curieAcme :: []))
    ∧ lookupRel (encodeOnce tblAcme (encodeOnce tblAcme envAcme)).links "curies"
      = some (.anySlice (.linkSlice (curieAcme :: []) ::
          .linkSlice (curieAcme :: []) :: []))
    ∧ exceptOutBytes (marshalJSON tblAcme envAcme)
      ≠ exceptOutBytes (marshalJSON tblAcme (encodeOnce tblAcme envAcme))
    ∧ (exceptOutBytes (marshalJSON tblAcme envAcme)).length
      < (exceptOutBytes (marshalJSON tblAcme (encodeOnce tblAcme envAcme))).length :=
  ⟨rfl, rfl, by decide, by decide⟩
